import Mathlib

/-!
Verification of the skolmaten-scrape repository.

This file gives a shallow embedding of the pure core of the two programs
under rootfs/usr/bin: the page-text parser of skolmaten.py
(SkolmatenAPI._parse_menu_data and the week-title handling around it) and
the assembling / publishing logic of skolmaten-main.py (SkolmatenAddon).
External collaborators (the browser, the Home Assistant HTTP API, the json
library) are modelled as explicit inputs or oracle functions; Python
exceptions are modelled with Except / Option values.

Modelling conventions for Python primitives, kept close to the source:
  - str.strip is modelled on the whitespace set of Char.isWhitespace;
  - str.lower is modelled character-wise on ASCII letters plus the Swedish
    capitals that occur in the scraped text;
  - str.isdigit and the regex class backslash-d are modelled as the ASCII
    decimal digits (the inputs of this program are ASCII at these points);
  - slicing s[:n] and len(s) count code points, as in Python;
  - dicts with a fixed key set are modelled as structures, and the parser
    always materializes all four DayEntry keys, so dict.get of those keys
    returns the stored value (possibly the Python None, modelled as
    Option.none).
-/

namespace Skolmaten

/-! Python-like string primitives, defined over character lists so that all
definitions compute by plain structural recursion. -/

/-- Character-wise model of Python str.lower, covering ASCII letters and the
Swedish capital letters that occur in the scraped pages. -/
def pyLowerChar (c : Char) : Char :=
  if 'A' ≤ c ∧ c ≤ 'Z' then Char.ofNat (c.toNat + 32)
  else if c = 'Å' then 'å'
  else if c = 'Ä' then 'ä'
  else if c = 'Ö' then 'ö'
  else c

/-- Model of line.lower() from the source. -/
def pyLower (s : String) : String :=
  String.mk (s.toList.map pyLowerChar)

/-- Prefix test for character lists (helper for the Python in operator). -/
def listStartsWith : List Char → List Char → Bool
  | _, [] => true
  | [], _ :: _ => false
  | a :: as, b :: bs => a == b && listStartsWith as bs

/-- Contiguous-sublist test for character lists. -/
def listHasSub : List Char → List Char → Bool
  | [], needle => needle.isEmpty
  | c :: t, needle => listStartsWith (c :: t) needle || listHasSub t needle

/-- Model of the Python expression needle in hay on strings. -/
def pyIn (needle hay : String) : Bool :=
  listHasSub hay.toList needle.toList

/-- Drop trailing whitespace characters from a character list. -/
def dropTrailingWs : List Char → List Char
  | [] => []
  | c :: t =>
    match dropTrailingWs t with
    | [] => if c.isWhitespace then [] else [c]
    | h :: r => c :: h :: r

/-- Strip leading and trailing whitespace from a character list. -/
def stripList (cs : List Char) : List Char :=
  dropTrailingWs (cs.dropWhile Char.isWhitespace)

/-- Model of Python str.strip(). -/
def pyStrip (s : String) : String :=
  String.mk (stripList s.toList)

/-- Split a character list at every character satisfying p, keeping empty
pieces, in the manner of Python str.split with an explicit separator. -/
def splitOnPred (p : Char → Bool) : List Char → List (List Char)
  | [] => [[]]
  | c :: t =>
    match splitOnPred p t with
    | [] => [[]]
    | h :: r => if p c then [] :: h :: r else (c :: h) :: r

/-- Model of page_text.split with the newline separator followed by the
strip-and-drop-empties comprehension of the source:
lines = [line.strip() for line in page_text.split backslash-n if line.strip()]. -/
def stripLines (raw : String) : List String :=
  ((splitOnPred (fun c => c == '\n') raw.toList).map
    (fun cs => String.mk (stripList cs))).filter (fun l => l ≠ "")

/-- Model of Python str.split() with no argument: split on whitespace runs
and discard empty pieces. -/
def pySplitWs (s : String) : List String :=
  ((splitOnPred Char.isWhitespace s.toList).map String.mk).filter (fun l => l ≠ "")

/-- Model of Python str.isdigit restricted to ASCII digit strings. -/
def pyIsDigit (s : String) : Bool :=
  s != "" && s.toList.all Char.isDigit

/-- Value of Python int(s) on an all-ASCII-digit string. -/
def natOfDigits (s : String) : Nat :=
  s.toList.foldl (fun n c => 10 * n + (c.toNat - 48)) 0

/-- Model of Python s[:n]: take the first n code points. -/
def pyTake (s : String) (n : Nat) : String :=
  String.mk (s.toList.take n)

/-- Python exceptions relevant to this program, carrying the str(e) text. -/
inductive PyErr where
  | typeError (msg : String)
  | indexError (msg : String)
  | timeoutError (msg : String)
  | other (msg : String)
deriving DecidableEq

/-- Model of str(e) on a caught exception. -/
def pyStrErr : PyErr → String
  | .typeError m => m
  | .indexError m => m
  | .timeoutError m => m
  | .other m => m

/-! The parser core of rootfs/usr/bin/skolmaten.py, _parse_menu_data. -/

/-- One parsed menu day, the dict built at lines 195-200 of skolmaten.py.
The parser materializes all four keys on every entry; date and week hold
the Python None (modelled as Option.none) when nothing was found. -/
structure DayEntry where
  weekday : String
  date : Option String
  week : Option Nat
  courses : List String
deriving DecidableEq, Repr

/-- The recognized day names of skolmaten.py lines 157-159: Swedish plus
the English fallback set. -/
def all_days : List String :=
  ["måndag", "tisdag", "onsdag", "torsdag", "fredag",
   "monday", "tuesday", "wednesday", "thursday", "friday"]

/-- A line whose lowercase form contains a recognized day name, the test
performed both by the outer scan (line 174) and by the look-ahead break
check (line 182). -/
def isDayLine (l : String) : Bool :=
  all_days.any (fun d => pyIn d (pyLower l))

/-- Exact match of the anchored regex for a 4-digit-2-digit-2-digit date
(line 185 of skolmaten.py). -/
def isDateLine (s : String) : Bool :=
  match s.toList with
  | [y1, y2, y3, y4, h1, m1, m2, h2, d1, d2] =>
    y1.isDigit && y2.isDigit && y3.isDigit && y4.isDigit && h1 == '-' &&
    m1.isDigit && m2.isDigit && h2 == '-' && d1.isDigit && d2.isDigit
  | _ => false

/-- The look-ahead filter of lines 184-187: a candidate line is kept as a
course exactly when it is non-empty, longer than 5 characters, not an exact
date match, and does not contain the disclaimer substring. -/
def isQualifyingCourse (nl : String) : Bool :=
  (nl != "") && decide (5 < nl.length) && !isDateLine nl &&
    !pyIn "Med reservation" nl

/-- The look-ahead loop of lines 178-192: walk the lines after a day label
until the next day-name line (not consumed) or the end, collecting course
lines and recording the last date line seen into current_date. -/
def collect : List String → Option String → List String × Option String
  | [], d => ([], d)
  | l :: t, d =>
    let nl := pyStrip l
    if isDayLine nl then ([], d)
    else if (nl != "") && decide (5 < nl.length) then
      if isDateLine nl then collect t (some nl)
      else if pyIn "Med reservation" nl then collect t d
      else
        let r := collect t d
        (nl :: r.1, r.2)
    else collect t d

/-- The outer scan of lines 171-205 specialized to a week value that was
computed without error: on a day-name line run the look-ahead, emit an
entry when at least one course was collected, and continue from the next
line with the possibly updated current_date. -/
def runScan (w : Option Nat) : List String → Option String → List DayEntry
  | [], _ => []
  | line :: rest, d =>
    if isDayLine line then
      let r := collect rest d
      if r.1.isEmpty then runScan w rest r.2
      else ⟨line, r.2, w, r.1⟩ :: runScan w rest r.2
    else runScan w rest d

/-- The week-number expression of line 198:
int(week_title.split()[-1]) if week_title != "Unknown Week" and
week_title.split()[-1].isdigit() else None.
Indexing [-1] on the empty split of an all-whitespace title raises
IndexError. -/
def weekOfTitle (wt : String) : Except PyErr (Option Nat) :=
  if wt == "Unknown Week" then .ok none
  else
    match (pySplitWs wt).getLast? with
    | none => .error (.indexError "list index out of range")
    | some tok => if pyIsDigit tok then .ok (some (natOfDigits tok)) else .ok none

/-- The outer scan with the exception semantics of the source: the week
expression is evaluated at each entry construction; if it raises, the loop
aborts and the pair carries the exception together with the entries
accumulated so far (the menu_list the except handler then returns). -/
def scanAux (wt : String) :
    List String → Option String → List DayEntry → List DayEntry × Option PyErr
  | [], _, acc => (acc, none)
  | line :: rest, d, acc =>
    if isDayLine line then
      let r := collect rest d
      if r.1.isEmpty then scanAux wt rest r.2 acc
      else
        match weekOfTitle wt with
        | .error e => (acc, some e)
        | .ok w => scanAux wt rest r.2 (acc ++ [⟨line, r.2, w, r.1⟩])
    else scanAux wt rest d acc

/-- _parse_menu_data of rootfs/usr/bin/skolmaten.py, restricted to its pure
inputs: the container text and the week title (the WebDriver reads that
produce them are the callers concern). The try/except around the whole
body returns the accumulated menu_list when anything inside raises. -/
def parse_menu_data (page_text week_title : String) : List DayEntry :=
  (scanAux week_title (stripLines page_text) none []).1

/-! The add-on logic of rootfs/usr/bin/skolmaten-main.py (SkolmatenAddon).
The Home Assistant publish collaborator is modelled by returning the
payload that would be POSTed; datetime.now and date.today are explicit
inputs. -/

/-- One configured school as the code reads it with dict.get: both keys
may be missing. -/
structure School where
  name : Option String
  slug : Option String
deriving DecidableEq

/-- The sensor attributes dict. The error and no-data payloads of the
source omit the today_* keys entirely; those absences are modelled by the
none / empty values of the corresponding fields. -/
structure Attrs where
  icon : String
  friendly_name : String
  last_updated : String
  errorMsg : Option String
  calendar : List (String × List DayEntry)
  today_date : Option String
  today_weekday : Option String
  today_week : Option Nat
  today_courses : List String
  courses_count : Nat
deriving DecidableEq

/-- The payload handed to HomeAssistantAPI.create_sensor. -/
structure Publish where
  entity_id : String
  state : String
  attributes : Attrs
deriving DecidableEq

/-- The entity id expression sensor.skolmaten_ followed by the slug with
every dash replaced by an underscore (lines 219, 232, 251). -/
def entityId (slug : String) : String :=
  "sensor.skolmaten_" ++ String.mk (slug.toList.map (fun c => if c == '-' then '_' else c))

/-- _get_current_menu of skolmaten-main.py lines 137-145: the first entry
whose date value equals the ISO form of today; the Python None stored when
no date line was found never equals the string today. -/
def _get_current_menu (menu_data : List DayEntry) (today : String) : Option DayEntry :=
  menu_data.find? (fun m => m.date == some today)

/-- The grouping key of line 152, str(menu_item.get(week-key, Unknown)):
the parser always stores the week key, so the get default never applies
and a missing week number prints as the Python None. -/
def calendarKey (e : DayEntry) : String :=
  match e.week with
  | some w => toString w
  | none => "None"

/-- Insertion into the calendar dict of lines 154-162: a new key is
appended at the end, an existing key has the entry appended to its list.
The per-entry dict rebuilt at lines 157-162 copies all four keys, which
are always present, so the entry is appended unchanged. -/
def insertCal (cal : List (String × List DayEntry)) (k : String) (e : DayEntry) :
    List (String × List DayEntry) :=
  match cal with
  | [] => [(k, [e])]
  | (k', es) :: t => if k' == k then (k', es ++ [e]) :: t else (k', es) :: insertCal t k e

/-- _create_calendar_structure of skolmaten-main.py lines 147-164. -/
def _create_calendar_structure (menu_data : List DayEntry) : List (String × List DayEntry) :=
  menu_data.foldl (fun cal e => insertCal cal (calendarKey e) e) []

/-- Lookup in the insertion-ordered calendar dict. -/
def lookupCal (cal : List (String × List DayEntry)) (k : String) : Option (List DayEntry) :=
  match cal.find? (fun kv => kv.1 == k) with
  | some kv => some kv.2
  | none => none

/-- The error-state attributes built at lines 220-226 when the fetch
raised. -/
def error_attrs (school_name now msg : String) : Attrs :=
  ⟨"mdi:alert-circle", "Menu - " ++ school_name, now, some msg, [],
   none, none, none, [], 0⟩

/-- The no-data attributes built at lines 233-238 when the fetch returned
an empty list. -/
def no_data_attrs (school_name now : String) : Attrs :=
  ⟨"mdi:food-off", "Menu - " ++ school_name, now, none, [],
   none, none, none, [], 0⟩

/-- _create_sensor_attributes of lines 166-196 together with the
friendly_name and last_updated overrides of lines 255-256. -/
def full_attrs (menu_data : List DayEntry) (current : Option DayEntry)
    (school_name now : String) : Attrs :=
  match current with
  | some m =>
    ⟨"mdi:food", school_name, now, none, _create_calendar_structure menu_data,
     m.date, some m.weekday, m.week, m.courses, m.courses.length⟩
  | none =>
    ⟨"mdi:food", school_name, now, none, _create_calendar_structure menu_data,
     none, none, none, [], 0⟩

/-- update_school_sensor of skolmaten-main.py lines 198-270. The outcome
of the get_school_menu call is an explicit argument fetch, since the inner
try catches every exception that the call raises; today and now are the
dates read from the clock. Returning none models the early return False
when the school has no slug; returning some models the create_sensor
POST of the corresponding payload. -/
def update_school_sensor (fetch : String → Except PyErr (List DayEntry))
    (today now : String) (school : School) : Option Publish :=
  let school_name := school.name.getD "Unknown School"
  match school.slug with
  | none => none
  | some slug =>
    match fetch slug with
    | .error e =>
      some ⟨entityId slug, "Error fetching menu", error_attrs school_name now (pyStrErr e)⟩
    | .ok menu_data =>
      if menu_data.isEmpty then
        some ⟨entityId slug, "No menu data available", no_data_attrs school_name now⟩
      else
        let current := _get_current_menu menu_data today
        let state :=
          match current with
          | some m => pyTake (String.intercalate ", " m.courses) 255
          | none => "No menu for today"
        some ⟨entityId slug, state, full_attrs menu_data current school_name now⟩

/-- update_all_schools of lines 272-288: every school is processed in
order inside its own try, so one publish attempt happens per school and a
failure on one school never stops the iteration. -/
def update_all_schools (fetch : String → Except PyErr (List DayEntry))
    (today now : String) (schools : List School) : List (Option Publish) :=
  schools.map (update_school_sensor fetch today now)

/-! The signature mismatch between the two programs: the caller passes the
keyword n_weeks, the callee accepts no such parameter. -/

/-- The parameter names of get_school_menu in rootfs/usr/bin/skolmaten.py,
lines 322-324: def get_school_menu(school_name, next_week=False,
headless=True). -/
def get_school_menu_params : List String :=
  ["school_name", "next_week", "headless"]

/-- The keyword names used at the call site in update_school_sensor,
lines 212-215: get_school_menu(school_slug, n_weeks=self.n_weeks). -/
def update_fetch_call_keywords : List String :=
  ["n_weeks"]

/-- A Python call raises TypeError when a keyword argument is not among
the declared parameter names (the callee has no kwargs catch-all). -/
def callUnexpectedKeyword (params kwargs : List String) : Bool :=
  kwargs.any (fun k => !params.contains k)

/-- The actual fetch step performed by update_school_sensor: the call as
written in the source, with the would-be successful menu retrieval left as
an oracle. The keyword check happens before any body runs. -/
def actual_fetch (oracle : String → List DayEntry) (slug : String) :
    Except PyErr (List DayEntry) :=
  if callUnexpectedKeyword get_school_menu_params update_fetch_call_keywords then
    .error (.typeError "get_school_menu got an unexpected keyword argument n_weeks")
  else .ok (oracle slug)

/-! The configuration loader _load_config of lines 110-135. The json
library is an external collaborator, modelled by an oracle for json.loads
and a small value universe for what it can return. -/

/-- Python values as returned by json.loads. -/
inductive PyVal where
  | null
  | bool (b : Bool)
  | num (n : Int)
  | str (s : String)
  | arr (xs : List PyVal)
  | obj (kvs : List (String × PyVal))

/-- Iterating a Python value: lists yield elements, strings yield their
characters, dicts yield their keys, everything else raises TypeError. -/
def pyIterElems : PyVal → Except PyErr (List PyVal)
  | .arr xs => .ok xs
  | .str s => .ok (s.toList.map (fun c => .str (String.mk [c])))
  | .obj kvs => .ok (kvs.map (fun kv => .str kv.1))
  | _ => .error (.typeError "object is not iterable")

/-- The validation test of line 124: isinstance(school, dict) and both
keys present. -/
def isValidSchool : PyVal → Bool
  | .obj kvs => kvs.any (fun kv => kv.1 == "name") && kvs.any (fun kv => kv.1 == "slug")
  | _ => false

/-- _load_config of skolmaten-main.py lines 110-135, with json.loads as an
oracle argument: an empty or [] SCHOOLS string short-circuits to [], a
parse error or an iteration TypeError is caught and yields [], and every
surviving element passed the name/slug validation. -/
def _load_config (schools_json : String)
    (loads : String → Except PyErr PyVal) : List PyVal :=
  if schools_json = "" || schools_json = "[]" then []
  else
    match loads schools_json with
    | .error _ => []
    | .ok v =>
      match pyIterElems v with
      | .error _ => []
      | .ok elems => elems.filter isValidSchool

/-! Statement-side predicates and concrete fixtures used by the theorems
below. All remaining declarations of this section are definitions; the
theorems follow after. -/

/-- The hypothesis of the day-count property, read off the claim text:
every line whose lowercase form contains a recognized day name is
followed, before the next day-name line, by at least one qualifying
course line. -/
def daysOk : List String → Bool
  | [] => true
  | l :: t =>
    if isDayLine l then
      (t.takeWhile (fun x => !isDayLine x)).any isQualifyingCourse && daysOk t
    else daysOk t

/-- The raw container text of the worked scenario from the spec. -/
def c2raw : String :=
  "Måndag 3 mars\n2024-03-04\nKöttbullar med potatismos\nTisdag 4 mars\nFisk Björkeby"

/-- First expected entry of the worked scenario. -/
def c2entry1 : DayEntry :=
  ⟨"Måndag 3 mars", some "2024-03-04", some 10, ["Köttbullar med potatismos"]⟩

/-- Second expected entry of the worked scenario; it carries the date of
the Monday line. -/
def c2entry2 : DayEntry :=
  ⟨"Tisdag 4 mars", some "2024-03-04", some 10, ["Fisk Björkeby"]⟩

/-- A container text with one day-name line followed by one qualifying
course line. -/
def c1cxRaw : String := "Måndag\nKöttbullar och mos"

/-- A container text yielding an entry with no week number. -/
def c4cxRaw : String := "Måndag\nPannkakor med sylt"

/-- The entry the parser emits for c4cxRaw under the Unknown Week title. -/
def c4cxEntry : DayEntry := ⟨"Måndag", none, none, ["Pannkakor med sylt"]⟩

/-- A json.loads oracle that fails, modelling an invalid SCHOOLS string. -/
def badLoads : String → Except PyErr PyVal :=
  fun _ => .error (.other "Expecting value: line 1 column 1 char 0")

/-- A fetch outcome that raises, modelling a timeout waiting for the menu
container. -/
def timeoutFetch : String → Except PyErr (List DayEntry) :=
  fun _ => .error (.timeoutError "timed out waiting for menu-container")

/-- Fixture menu entries for the today-state scenarios. -/
def c6e1 : DayEntry := ⟨"Måndag 2 mars", some "2026-03-02", some 10, ["Pannkaka med sylt"]⟩

/-- Second fixture entry, whose date is the today of the first scenario. -/
def c6e2 : DayEntry := ⟨"Tisdag 3 mars", some "2026-03-03", some 10, ["Fisk Björkeby", "Potatis"]⟩

/-- A fetch returning both fixture entries. -/
def c6fetch : String → Except PyErr (List DayEntry) := fun _ => .ok [c6e1, c6e2]

/-- A fetch returning only the first fixture entry. -/
def c6fetchOne : String → Except PyErr (List DayEntry) := fun _ => .ok [c6e1]

/-- Fixture schools for the scheduler-cycle scenario. -/
def c5schoolA : School := ⟨some "Skola A", some "skola-a"⟩

/-- Second fixture school. -/
def c5schoolB : School := ⟨some "Skola B", some "skola-b"⟩

/-! Helper lemmas. -/

/-- The head of a dropWhile result never satisfies the predicate. -/
theorem dropWhile_head_not (p : Char → Bool) (cs : List Char) :
    cs.dropWhile p = [] ∨ ∃ a t, cs.dropWhile p = a :: t ∧ p a = false := by
  induction cs with
  | nil => left; rfl
  | cons c t ih =>
    rw [List.dropWhile_cons]
    by_cases h : p c
    · simpa [h] using ih
    · right; exact ⟨c, t, by simp [h], by simp [h]⟩

/-- Dropping trailing whitespace twice is the same as dropping it once. -/
theorem dropTrailingWs_idem (cs : List Char) :
    dropTrailingWs (dropTrailingWs cs) = dropTrailingWs cs := by
  induction cs with
  | nil => rfl
  | cons c t ih =>
    cases hD : dropTrailingWs t with
    | nil =>
      by_cases hc : c.isWhitespace
      · simp [dropTrailingWs, hD, hc]
      · simp [dropTrailingWs, hD, hc]
    | cons h r =>
      rw [hD] at ih
      have h1 : dropTrailingWs (c :: t) = c :: h :: r := by
        unfold dropTrailingWs
        rw [hD]
      rw [h1]
      conv_lhs => unfold dropTrailingWs
      rw [ih]

/-- A fully stripped character list has no leading whitespace left. -/
theorem dropWhile_stripList (cs : List Char) :
    (stripList cs).dropWhile Char.isWhitespace = stripList cs := by
  unfold stripList
  rcases dropWhile_head_not Char.isWhitespace cs with h | ⟨a, t, h, ha⟩
  · rw [h]; rfl
  · rw [h]
    cases hD : dropTrailingWs t with
    | nil => simp [dropTrailingWs, hD, ha, List.dropWhile_cons]
    | cons h' r => simp [dropTrailingWs, hD, ha, List.dropWhile_cons]

/-- Stripping is idempotent on character lists. -/
theorem stripList_idem (cs : List Char) : stripList (stripList cs) = stripList cs := by
  have h1 := dropWhile_stripList cs
  show dropTrailingWs ((stripList cs).dropWhile Char.isWhitespace) = stripList cs
  rw [h1]
  unfold stripList
  exact dropTrailingWs_idem _

/-- Python strip is idempotent. -/
theorem pyStrip_idem (s : String) : pyStrip (pyStrip s) = pyStrip s := by
  show String.mk (stripList (String.mk (stripList s.toList)).toList) = _
  rw [show (String.mk (stripList s.toList)).toList = stripList s.toList from rfl,
    stripList_idem]
  rfl

/-- Every line produced by stripLines is already stripped and non-empty. -/
theorem mem_stripLines {raw : String} {l : String} (h : l ∈ stripLines raw) :
    pyStrip l = l ∧ l ≠ "" := by
  unfold stripLines at h
  rw [List.mem_filter] at h
  obtain ⟨hmem, hne⟩ := h
  rw [List.mem_map] at hmem
  obtain ⟨cs, _, rfl⟩ := hmem
  refine ⟨?_, by simpa using hne⟩
  show String.mk (stripList (String.mk (stripList cs)).toList) = _
  rw [show (String.mk (stripList cs)).toList = stripList cs from rfl, stripList_idem]

/-- When the week expression evaluates without raising, the scan with
exception semantics agrees with the clean scan. -/
theorem scanAux_ok {wt : String} {w : Option Nat} (hw : weekOfTitle wt = .ok w) :
    ∀ (lines : List String) (d : Option String) (acc : List DayEntry),
      scanAux wt lines d acc = (acc ++ runScan w lines d, none) := by
  intro lines
  induction lines with
  | nil => intro d acc; simp [scanAux, runScan]
  | cons line rest ih =>
    intro d acc
    by_cases hday : isDayLine line
    · by_cases hemp : (collect rest d).1.isEmpty
      · simp [scanAux, runScan, hday, hemp, ih]
      · simp [scanAux, runScan, hday, hemp, hw, ih]
    · simp [scanAux, runScan, hday, ih]

/-- When the week expression raises, the loop aborts at the first entry
construction, so the accumulated list is returned unchanged. -/
theorem scanAux_err_fst {wt : String} {e : PyErr} (hw : weekOfTitle wt = .error e) :
    ∀ (lines : List String) (d : Option String) (acc : List DayEntry),
      (scanAux wt lines d acc).1 = acc := by
  intro lines
  induction lines with
  | nil => intro d acc; rfl
  | cons line rest ih =>
    intro d acc
    by_cases hday : isDayLine line
    · by_cases hemp : (collect rest d).1.isEmpty
      · simp [scanAux, hday, hemp, ih]
      · simp [scanAux, hday, hemp, hw]
    · simp [scanAux, hday, ih]

/-- The parser equals the clean scan when the week title is well formed,
and returns the empty accumulated prefix when the week expression raises. -/
theorem parse_eq_clean (raw wt : String) :
    parse_menu_data raw wt =
      match weekOfTitle wt with
      | .ok w => runScan w (stripLines raw) none
      | .error _ => [] := by
  cases hw : weekOfTitle wt with
  | ok w => simp [parse_menu_data, scanAux_ok hw]
  | error e => simp [parse_menu_data, scanAux_err_fst hw]

/-- The course list collected by the look-ahead is exactly the stripped
segment before the next day-name line, filtered by the course test; in
particular it does not depend on the incoming current_date. -/
theorem collect_fst_eq : ∀ (t : List String) (d : Option String),
    (collect t d).1 =
      ((t.takeWhile (fun l => !isDayLine (pyStrip l))).map pyStrip).filter
        isQualifyingCourse := by
  intro t
  induction t with
  | nil => intro d; rfl
  | cons l t ih =>
    intro d
    by_cases hday : isDayLine (pyStrip l)
    · simp [collect, List.takeWhile_cons, hday]
    · rw [List.takeWhile_cons]
      by_cases hlen : (pyStrip l != "") && decide (5 < (pyStrip l).length)
      · by_cases hdate : isDateLine (pyStrip l)
        · simp [collect, hday, hlen, hdate, isQualifyingCourse, ih, List.filter_cons]
        · by_cases hres : pyIn "Med reservation" (pyStrip l)
          · simp [collect, hday, hlen, hdate, hres, isQualifyingCourse, ih,
              List.filter_cons]
          · simp only [Bool.and_eq_true] at hlen
            simp [collect, hday, hlen, hdate, hres, isQualifyingCourse, ih,
              List.filter_cons]
      · simp only [Bool.and_eq_true, not_and_or] at hlen
        rcases hlen with h | h
        · simp [collect, hday, isQualifyingCourse, ih, List.filter_cons,
            Bool.eq_false_iff.mpr h, eq_false_of_ne_true h]
        · simp [collect, hday, isQualifyingCourse, ih, List.filter_cons,
            eq_false_of_ne_true h]

/-- Every course stored by the look-ahead is a stripped line passing the
course filter. -/
theorem collect_mem_fst {t : List String} {d : Option String} {c : String}
    (h : c ∈ (collect t d).1) :
    (∃ l, c = pyStrip l) ∧ isQualifyingCourse c = true := by
  rw [collect_fst_eq] at h
  rw [List.mem_filter] at h
  obtain ⟨hmem, hq⟩ := h
  rw [List.mem_map] at hmem
  obtain ⟨l, _, rfl⟩ := hmem
  exact ⟨⟨l, rfl⟩, hq⟩

/-- Every entry the clean scan emits carries the scan week, a non-empty
course list, and only courses that passed the look-ahead filter. -/
theorem runScan_mem {w : Option Nat} : ∀ {lines : List String} {d : Option String}
    {e : DayEntry}, e ∈ runScan w lines d →
    e.week = w ∧ e.courses ≠ [] ∧ ∀ c ∈ e.courses,
      (∃ l, c = pyStrip l) ∧ isQualifyingCourse c = true := by
  intro lines
  induction lines with
  | nil => intro d e h; simp [runScan] at h
  | cons line rest ih =>
    intro d e h
    by_cases hday : isDayLine line
    · by_cases hemp : (collect rest d).1.isEmpty
      · rw [runScan] at h
        simp only [hday, if_true, hemp, if_true] at h
        exact ih h
      · rw [runScan] at h
        simp only [hday, if_true, hemp, if_false] at h
        rcases List.mem_cons.mp h with he | h
        · subst he
          refine ⟨rfl, ?_, ?_⟩
          · exact List.isEmpty_eq_false.mp (Bool.not_eq_true _ ▸ eq_false_of_ne_true hemp)
          · intro c hc
            exact collect_mem_fst hc
        · exact ih h
    · rw [runScan] at h
      simp only [hday, if_false] at h
      exact ih h

/-- takeWhile only looks at the list through the predicate values. -/
theorem takeWhile_congr {α : Type} {p q : α → Bool} :
    ∀ {l : List α}, (∀ x ∈ l, p x = q x) → l.takeWhile p = l.takeWhile q := by
  intro l
  induction l with
  | nil => intro _; rfl
  | cons a t ih =>
    intro h
    rw [List.takeWhile_cons, List.takeWhile_cons, h a (List.mem_cons_self a t),
      ih fun x hx => h x (List.mem_cons_of_mem a hx)]

/-- When every day-name line of a pre-stripped line list is followed by a
qualifying course line before the next day-name line, the clean scan emits
one entry per day-name line, labelled with it, in order. -/
theorem runScan_weekdays (w : Option Nat) :
    ∀ (lines : List String) (d : Option String),
      (∀ l ∈ lines, pyStrip l = l) → daysOk lines = true →
      (runScan w lines d).map (fun e => e.weekday) =
        lines.filter (fun l => isDayLine l) := by
  intro lines
  induction lines with
  | nil => intro d _ _; rfl
  | cons x rest ih =>
    intro d hstrip hdays
    have hstrip' : ∀ l ∈ rest, pyStrip l = l :=
      fun l hl => hstrip l (List.mem_cons_of_mem _ hl)
    by_cases hx : isDayLine x
    · rw [daysOk] at hdays
      simp only [hx, if_true, Bool.and_eq_true] at hdays
      obtain ⟨hany, hrest⟩ := hdays
      rw [List.any_eq_true] at hany
      obtain ⟨q, hqmem, hq⟩ := hany
      have hitems : (collect rest d).1 ≠ [] := by
        rw [collect_fst_eq]
        have htw : rest.takeWhile (fun l => !isDayLine (pyStrip l)) =
            rest.takeWhile (fun l => !isDayLine l) :=
          takeWhile_congr fun l hl => by rw [hstrip' l hl]
        have hmap : (rest.takeWhile (fun l => !isDayLine l)).map pyStrip =
            rest.takeWhile (fun l => !isDayLine l) := by
          rw [List.map_congr_left
            (g := id) (fun a ha => hstrip' a (List.takeWhile_subset _ ha)),
            List.map_id]
        rw [htw, hmap]
        exact List.ne_nil_of_mem (List.mem_filter.mpr ⟨hqmem, hq⟩)
      have hemp : (collect rest d).1.isEmpty = false :=
        List.isEmpty_eq_false.mpr hitems
      rw [runScan]
      simp only [hx, if_true, hemp, Bool.false_eq_true, if_false, List.map_cons,
        List.filter_cons, hx]
      rw [ih (collect rest d).2 hstrip' hrest]
    · rw [daysOk] at hdays
      simp only [hx, if_false] at hdays
      rw [runScan]
      simp only [hx, Bool.false_eq_true, if_false, List.filter_cons]
      rw [ih d hstrip' hdays]

/-- A week title that is the Unknown Week literal or has at least one
whitespace-delimited token makes the week expression evaluate without
raising. -/
theorem weekOfTitle_ok {wt : String} (h : wt = "Unknown Week" ∨ pySplitWs wt ≠ []) :
    ∃ w, weekOfTitle wt = .ok w := by
  rcases h with h | h
  · exact ⟨none, by simp [weekOfTitle, h]⟩
  · unfold weekOfTitle
    by_cases hu : wt == "Unknown Week"
    · exact ⟨none, by simp [hu]⟩
    · cases hl : (pySplitWs wt).getLast? with
      | none => exact absurd (List.getLast?_eq_none_iff.mp hl) h
      | some tok =>
        by_cases hd : pyIsDigit tok
        · exact ⟨some (natOfDigits tok), by simp [hu, hl, hd]⟩
        · exact ⟨none, by simp [hu, hl, hd]⟩

/-! Claim theorems. -/

/-- C1 (amended): for every raw text whose non-empty trimmed lines are
such that each day-name line is followed, before the next day-name line,
by at least one qualifying course line, and for every week title that is
the Unknown Week literal or has at least one whitespace-delimited token,
the parser returns one DayEntry per day-name line, labelled with it, in
source order. -/
theorem parse_day_count (raw wt : String)
    (htitle : wt = "Unknown Week" ∨ pySplitWs wt ≠ [])
    (hdays : daysOk (stripLines raw) = true) :
    (parse_menu_data raw wt).map (fun e => e.weekday) =
      (stripLines raw).filter (fun l => isDayLine l) := by
  obtain ⟨w, hw⟩ := weekOfTitle_ok htitle
  rw [parse_eq_clean, hw]
  exact runScan_weekdays w (stripLines raw) none
    (fun l hl => (mem_stripLines hl).1) hdays

/-- Witness for parse_day_count at the worked scenario input. -/
theorem parse_day_count_witness :
    (parse_menu_data c2raw "Vecka 10").map (fun e => e.weekday) =
      ["Måndag 3 mars", "Tisdag 4 mars"] := by
  rw [parse_day_count c2raw "Vecka 10" (Or.inr (by decide)) (by decide)]
  decide

/-- C1 counterexample: with the empty week title, the same day-structure
hypothesis holds for a one-day text, yet the parser returns no entries,
because the week expression indexes into an empty split and the raised
IndexError aborts the scan at the first entry construction. -/
theorem parse_day_count_cx :
    ¬ (daysOk (stripLines c1cxRaw) = true →
        (parse_menu_data c1cxRaw "").map (fun e => e.weekday) =
          (stripLines c1cxRaw).filter (fun l => isDayLine l)) := by
  decide

/-- C2: the worked scenario parses to exactly the two expected entries:
the Monday entry holds the date line and the single Monday course, and the
Tuesday entry inherits the Monday date since current_date is never reset
between days; both carry week 10 from the title. -/
theorem parse_worked_scenario :
    parse_menu_data c2raw "Vecka 10" = [c2entry1, c2entry2] := by
  decide

/-- C7: every emitted entry has a non-empty course list, and every stored
course is not an exact date match, does not contain the disclaimer
substring, and has trimmed length above 5. -/
theorem parse_course_invariants (raw wt : String) (e : DayEntry)
    (h : e ∈ parse_menu_data raw wt) :
    e.courses ≠ [] ∧ ∀ c ∈ e.courses,
      isDateLine c = false ∧ pyIn "Med reservation" c = false ∧
        5 < (pyStrip c).length := by
  rw [parse_eq_clean] at h
  cases hw : weekOfTitle wt with
  | error e' => rw [hw] at h; simp at h
  | ok w =>
    rw [hw] at h
    obtain ⟨_, hne, hc⟩ := runScan_mem h
    refine ⟨hne, ?_⟩
    intro c hcm
    obtain ⟨⟨l, rfl⟩, hq⟩ := hc c hcm
    unfold isQualifyingCourse at hq
    simp only [Bool.and_eq_true, Bool.not_eq_true', decide_eq_true_eq] at hq
    obtain ⟨⟨⟨_, hlen⟩, hdate⟩, hres⟩ := hq
    exact ⟨hdate, hres, by rw [pyStrip_idem]; exact hlen⟩

/-- Witness for parse_course_invariants at the worked scenario. -/
theorem parse_course_invariants_witness :
    5 < (pyStrip "Köttbullar med potatismos").length := by
  have h := parse_course_invariants c2raw "Vecka 10" c2entry1 (by decide)
  exact (h.2 "Köttbullar med potatismos" (by decide)).2.2

/-- C8: a week title whose trailing whitespace-delimited token is not all
digits never raises and never changes which entries are emitted; every
emitted entry has week absent. -/
theorem parse_week_absent (raw wt tok : String)
    (hlast : (pySplitWs wt).getLast? = some tok)
    (hdig : pyIsDigit tok = false) :
    parse_menu_data raw wt = runScan none (stripLines raw) none ∧
      ∀ e ∈ parse_menu_data raw wt, e.week = none := by
  have hw : weekOfTitle wt = .ok none := by
    unfold weekOfTitle
    by_cases hu : wt == "Unknown Week"
    · simp [hu]
    · simp [hu, hlast, hdig]
  have heq : parse_menu_data raw wt = runScan none (stripLines raw) none := by
    rw [parse_eq_clean, hw]
  refine ⟨heq, ?_⟩
  intro e he
  rw [heq] at he
  exact (runScan_mem he).1

/-- Witness for parse_week_absent at the Unknown Week title. -/
theorem parse_week_absent_witness : c4cxEntry.week = none := by
  have h := parse_week_absent c4cxRaw "Unknown Week" "Week" (by decide) (by decide)
  exact h.2 c4cxEntry (by decide)

/-- C10: the parser never propagates an exception: it equals the clean
scan whenever the week expression evaluates, and when that expression
raises (the only internal failure point of the pure scan, reached at the
first entry construction) the accumulated prefix — necessarily empty — is
returned instead. -/
theorem parse_total_prefix (raw wt : String) :
    parse_menu_data raw wt =
      (match weekOfTitle wt with
       | .ok w => runScan w (stripLines raw) none
       | .error _ => []) :=
  parse_eq_clean raw wt

/-- Unfolding of calendar lookup on a cons cell. -/
theorem lookupCal_cons (k1 : String) (es : List DayEntry)
    (t : List (String × List DayEntry)) (k' : String) :
    lookupCal ((k1, es) :: t) k' = if k1 == k' then some es else lookupCal t k' := by
  by_cases h : k1 == k' <;> simp [lookupCal, List.find?, h]

/-- Lookup after a single calendar insertion: the inserted key gains the
entry at the end of its list, every other key is untouched. -/
theorem lookupCal_insertCal (cal : List (String × List DayEntry)) (k : String)
    (e : DayEntry) (k' : String) :
    lookupCal (insertCal cal k e) k' =
      if k' = k then
        match lookupCal cal k with
        | none => some [e]
        | some es => some (es ++ [e])
      else lookupCal cal k' := by
  induction cal with
  | nil =>
    by_cases h : k' = k
    · subst h
      simp [insertCal, lookupCal_cons, lookupCal, List.find?]
    · have hbf : (k == k') = false := beq_eq_false_iff_ne.mpr (fun hk => h hk.symm)
      simp [insertCal, lookupCal_cons, lookupCal, List.find?, h, hbf]
  | cons kv t ih =>
    obtain ⟨k1, es⟩ := kv
    by_cases h1 : k1 = k
    · subst h1
      by_cases h : k' = k1
      · subst h
        simp [insertCal, lookupCal_cons]
      · have hbf : (k1 == k') = false := beq_eq_false_iff_ne.mpr (fun hk => h hk.symm)
        simp [insertCal, lookupCal_cons, hbf, h]
    · have hbf : (k1 == k) = false := beq_eq_false_iff_ne.mpr h1
      by_cases h2 : k1 = k'
      · subst h2
        simp [insertCal, hbf, lookupCal_cons, h1]
      · have hbf2 : (k1 == k') = false := beq_eq_false_iff_ne.mpr h2
        simp [insertCal, hbf, lookupCal_cons, hbf2, ih]

/-- Lookup after folding a batch of entries into the calendar: the
entries whose key is k are appended, in order, to whatever the key
already held. -/
theorem lookupCal_foldl :
    ∀ (rest : List DayEntry) (cal : List (String × List DayEntry)) (k : String),
      lookupCal (rest.foldl (fun c e => insertCal c (calendarKey e) e) cal) k =
        match lookupCal cal k with
        | none =>
          if (rest.filter (fun e => calendarKey e == k)).isEmpty then none
          else some (rest.filter (fun e => calendarKey e == k))
        | some es => some (es ++ rest.filter (fun e => calendarKey e == k)) := by
  intro rest
  induction rest with
  | nil =>
    intro cal k
    cases h : lookupCal cal k <;> simp [h]
  | cons e t ih =>
    intro cal k
    rw [List.foldl_cons, ih, lookupCal_insertCal, List.filter_cons]
    by_cases hk : calendarKey e == k
    · have hk' : k = calendarKey e := (beq_iff_eq.mp hk).symm
      simp only [hk, if_pos hk', if_true]
      cases h : lookupCal cal k with
      | none =>
        rw [hk'] at h
        simp [h, hk']
      | some es =>
        rw [hk'] at h
        simp [h, hk']
    · have hk' : ¬ (k = calendarKey e) := fun h =>
        absurd (beq_iff_eq.mpr h.symm) (by simpa using hk)
      simp only [hk, Bool.false_eq_true, if_false, if_neg hk']

/-- C4 (amended): for every entry sequence, the calendar groups each
entry under str of its week number when present and under the literal key
None — the str form of the Python None stored by the parser — when
absent; within each key, fetch order is preserved. The Unknown default of
dict.get is dead for parser entries, which always carry the week key. -/
theorem calendar_grouping (menu : List DayEntry) (k : String) :
    lookupCal (_create_calendar_structure menu) k =
      if (menu.filter (fun e => calendarKey e == k)).isEmpty then none
      else some (menu.filter (fun e => calendarKey e == k)) := by
  unfold _create_calendar_structure
  rw [lookupCal_foldl]
  simp [lookupCal, List.find?]

/-- C4 counterexample: a parser entry with absent week is filed under the
key None, and the key Unknown named by the claim is absent from the
calendar. -/
theorem calendar_grouping_cx :
    parse_menu_data c4cxRaw "Unknown Week" = [c4cxEntry] ∧
    c4cxEntry.week = none ∧
    lookupCal (_create_calendar_structure [c4cxEntry]) "Unknown" = none ∧
    lookupCal (_create_calendar_structure [c4cxEntry]) "None" = some [c4cxEntry] := by
  decide

/-- C3: the configured week count never reaches the fetch: the call site
passes the keyword n_weeks, which is not a parameter of get_school_menu,
so the call raises TypeError for every source and the per-source update
always publishes the error state instead of a one- or two-week menu. -/
theorem fetch_call_signature_bug (oracle : String → List DayEntry)
    (today now name slug : String) :
    ¬ ("n_weeks" ∈ get_school_menu_params) ∧
    update_school_sensor (actual_fetch oracle) today now ⟨some name, some slug⟩ =
      some ⟨entityId slug, "Error fetching menu",
        error_attrs name now
          "get_school_menu got an unexpected keyword argument n_weeks"⟩ := by
  constructor
  · decide
  · simp [update_school_sensor, actual_fetch, callUnexpectedKeyword,
      get_school_menu_params, update_fetch_call_keywords, pyStrErr]

/-- C5: a source whose fetch raises still yields exactly one published
degraded state — the fixed error text with an empty calendar — and the
cycle processes the sources before and after it exactly as it otherwise
would. -/
theorem update_cycle_degraded (fetch : String → Except PyErr (List DayEntry))
    (today now : String) (pre post : List School) (name : Option String)
    (slug : String) (e : PyErr) (hf : fetch slug = .error e) :
    update_all_schools fetch today now (pre ++ ⟨name, some slug⟩ :: post) =
      update_all_schools fetch today now pre ++
        some ⟨entityId slug, "Error fetching menu",
          error_attrs (name.getD "Unknown School") now (pyStrErr e)⟩ ::
          update_all_schools fetch today now post := by
  unfold update_all_schools
  rw [List.map_append, List.map_cons]
  simp [update_school_sensor, hf]

/-- Witness for update_cycle_degraded: two sources, both timing out, each
get their own degraded publish. -/
theorem update_cycle_degraded_witness :
    update_all_schools timeoutFetch "2026-03-02" "2026-03-02T06:00:00"
        [c5schoolA, c5schoolB] =
      [some ⟨"sensor.skolmaten_skola_a", "Error fetching menu",
        error_attrs "Skola A" "2026-03-02T06:00:00"
          "timed out waiting for menu-container"⟩,
       some ⟨"sensor.skolmaten_skola_b", "Error fetching menu",
        error_attrs "Skola B" "2026-03-02T06:00:00"
          "timed out waiting for menu-container"⟩] := by
  have h := update_cycle_degraded timeoutFetch "2026-03-02" "2026-03-02T06:00:00"
    [] [c5schoolB] (some "Skola A") "skola-a"
    (.timeoutError "timed out waiting for menu-container") rfl
  exact h.trans (by decide)

/-- find? returns the first element satisfying the predicate. -/
theorem find?_append_first {α : Type} (p : α → Bool) :
    ∀ (pre : List α) (e : α) (post : List α),
      (∀ x ∈ pre, p x = false) → p e = true →
      (pre ++ e :: post).find? p = some e := by
  intro pre
  induction pre with
  | nil => intro e post _ he; simpa using List.find?_cons_of_pos _ he
  | cons a t ih =>
    intro e post h he
    rw [List.cons_append, List.find?_cons_of_neg]
    · exact ih e post (fun x hx => h x (List.mem_cons_of_mem a hx)) he
    · simp [h a (List.mem_cons_self a t)]

/-- C6: on a successful fetch, when some entry carries the ISO date of
today the published state is the comma-joined course list of the first
such entry cut to 255 characters; when no entry does, the current menu is
absent and the published state is the fixed sentinel. -/
theorem update_today_state (fetch : String → Except PyErr (List DayEntry))
    (today now name slug : String) (menu : List DayEntry)
    (hf : fetch slug = Except.ok menu) :
    (∀ pre e post, menu = pre ++ e :: post → e.date = some today →
        (∀ x ∈ pre, x.date ≠ some today) →
        update_school_sensor fetch today now ⟨some name, some slug⟩ =
          some ⟨entityId slug, pyTake (String.intercalate ", " e.courses) 255,
            full_attrs menu (some e) name now⟩) ∧
    (menu ≠ [] → (∀ x ∈ menu, x.date ≠ some today) →
        _get_current_menu menu today = none ∧
        update_school_sensor fetch today now ⟨some name, some slug⟩ =
          some ⟨entityId slug, "No menu for today",
            full_attrs menu none name now⟩) := by
  constructor
  · intro pre e post hm hd hpre
    have hcur : _get_current_menu menu today = some e := by
      rw [hm]
      unfold _get_current_menu
      apply find?_append_first
      · intro x hx
        exact beq_eq_false_iff_ne.mpr (hpre x hx)
      · exact beq_iff_eq.mpr hd
    have hne : menu.isEmpty = false := by
      rw [hm]
      rcases pre with _ | ⟨a, t⟩ <;> simp
    simp [update_school_sensor, hf, hne, hcur]
  · intro hne hall
    have hcur : _get_current_menu menu today = none := by
      unfold _get_current_menu
      rw [List.find?_eq_none]
      intro x hx
      simpa using hall x hx
    have hne' : menu.isEmpty = false := List.isEmpty_eq_false.mpr hne
    exact ⟨hcur, by simp [update_school_sensor, hf, hne', hcur]⟩

/-- Witness for update_today_state in both directions: a fetched menu
with a today match publishes the joined courses of the first match, one
without publishes the sentinel. -/
theorem update_today_state_witness :
    update_school_sensor c6fetch "2026-03-03" "2026-03-03T11:00:00"
        ⟨some "Skolan", some "test-skola"⟩ =
      some ⟨"sensor.skolmaten_test_skola", "Fisk Björkeby, Potatis",
        full_attrs [c6e1, c6e2] (some c6e2) "Skolan" "2026-03-03T11:00:00"⟩ ∧
    update_school_sensor c6fetchOne "2026-03-05" "2026-03-05T11:00:00"
        ⟨some "Skolan", some "test-skola"⟩ =
      some ⟨"sensor.skolmaten_test_skola", "No menu for today",
        full_attrs [c6e1] none "Skolan" "2026-03-05T11:00:00"⟩ := by
  constructor
  · have h := (update_today_state c6fetch "2026-03-03" "2026-03-03T11:00:00"
      "Skolan" "test-skola" [c6e1, c6e2] rfl).1 [c6e1] c6e2 [] rfl
      (by decide) (by decide)
    exact h.trans (by decide)
  · have h := ((update_today_state c6fetchOne "2026-03-05" "2026-03-05T11:00:00"
      "Skolan" "test-skola" [c6e1] rfl).2 (by decide) (by decide)).2
    exact h.trans (by decide)

/-- C9: whatever the SCHOOLS string and whatever json.loads makes of it,
every element of the loaded configuration is a record holding both the
name and the slug key, and a parse failure yields the empty list rather
than an exception. -/
theorem load_config_valid (s : String) (loads : String → Except PyErr PyVal) :
    (∀ v ∈ _load_config s loads, isValidSchool v = true) ∧
    (∀ e, loads s = .error e → _load_config s loads = []) := by
  constructor
  · intro v hv
    unfold _load_config at hv
    split at hv
    · simp at hv
    · split at hv
      · simp at hv
      · split at hv
        · simp at hv
        · exact (List.mem_filter.mp hv).2
  · intro e he
    unfold _load_config
    split
    · rfl
    · rw [he]

/-- Witness for load_config_valid: an invalid SCHOOLS string loads as the
empty configuration. -/
theorem load_config_valid_witness : _load_config "not json" badLoads = [] :=
  (load_config_valid "not json" badLoads).2
    (.other "Expecting value: line 1 column 1 char 0") rfl

end Skolmaten
